import Mathlib

/-!
Verification development for the kyoto compact-block-filter light client.

The event and message surface (`NodeMessage`, `SyncUpdate`, `Warning`,
`ClientMessage`, `TxBroadcastPolicy`, `DisconnectedHeader`, ...) is embedded
from `src/lib.rs` and `src/node/messages.rs`.  The header chain engine, node
state machine and client requester are not part of the published slice of the
repository; they are modelled from the specification (each such definition says
so in its doc comment), with behaviour that the integration tests in
`tests/core.rs` pin down (in particular the order of reorganized headers in a
`BlocksDisconnected` event) taken from those tests.

Block headers are abstracted: the 80-byte codec and double-SHA256 are out of
scope, so a header carries its own hash, the hash of its predecessor and the
proof-of-work quantity it contributes, all as natural numbers.
-/

namespace Kyoto

/-- Modelled from the spec: an 80-byte canonical Bitcoin header "carries its
own hash (double-SHA256) and the hash of its predecessor"; the hash codec is
out of scope, so hashes and the contributed proof of work are abstract. -/
structure Header where
  prev : Nat
  hash : Nat
  work : Nat
deriving DecidableEq

/-- `HeaderCheckpoint` from `chain/checkpoints.rs`: a `(height, hash)` pair. -/
structure HeaderCheckpoint where
  height : Nat
  hash : Nat
deriving DecidableEq

/-- `DisconnectedHeader` from `src/lib.rs`: a header removed by a reorg
together with the height where it used to be in the chain. -/
structure DisconnectedHeader where
  height : Nat
  header : Header
deriving DecidableEq

/-- `IndexedTransaction` from `src/lib.rs`; the transaction is abstract. -/
structure IndexedTransaction where
  transaction : Nat
  height : Nat
  hash : Nat
deriving DecidableEq

/-- `IndexedBlock` from `src/lib.rs`; the block body is abstract. -/
structure IndexedBlock where
  height : Nat
  block : Nat
deriving DecidableEq

/-- `RejectPayload` from `src/node/messages.rs`; the reject reason enumeration
is external, abstracted to a code. -/
structure RejectPayload where
  reason : Nat
  txid : Nat
deriving DecidableEq

/-- `TxBroadcastPolicy` from `src/lib.rs`. -/
inductive TxBroadcastPolicy
  | AllPeers
  | RandomPeer
deriving DecidableEq

/-- The `#[default]` attribute on `TxBroadcastPolicy::RandomPeer` in
`src/lib.rs` makes `RandomPeer` the value of `Default::default()`. -/
def TxBroadcastPolicy.default : TxBroadcastPolicy := TxBroadcastPolicy.RandomPeer

/-- `TxBroadcast` from `src/lib.rs`; the transaction is abstract. -/
structure TxBroadcast where
  tx : Nat
  broadcast_policy : TxBroadcastPolicy
deriving DecidableEq

/-- A `TxBroadcast` whose policy is left to the derived default, as in
`TxBroadcast { tx, broadcast_policy: Default::default() }`. -/
def TxBroadcast.withDefaultPolicy (tx : Nat) : TxBroadcast :=
  { tx := tx, broadcast_policy := TxBroadcastPolicy.default }

/-- `Warning` from `src/node/messages.rs`, variant for variant. -/
inductive Warning
  | NotEnoughConnections
  | PeerTimedOut
  | CouldNotConnect
  | UnsolicitedMessage
  | UnlinkableAnchor
  | CorruptedHeaders
  | TransactionRejected
  | FailedPersistance (warning : String)
  | EvaluatingFork
  | EmptyPeerDatabase
  | UnexpectedSyncError (warning : String)
deriving DecidableEq

/-- Modelled from the spec: `NodeState` is "one of Behind, HeadersSynced,
FilterHeadersSynced, FiltersSynced, TransactionsSynced" (its defining module
`node/node.rs` is not in the published slice). -/
inductive NodeState
  | Behind
  | HeadersSynced
  | FilterHeadersSynced
  | FiltersSynced
  | TransactionsSynced
deriving DecidableEq

/-- `SyncUpdate` from `src/node/messages.rs`.  The `recent_history` field is a
`BTreeMap<u32, Header>` in the source; it is modelled as an association list
whose iteration order is the list order, so the `BTreeMap` guarantees (unique
keys, ascending iteration) become provable properties of its construction. -/
structure SyncUpdate where
  tip : HeaderCheckpoint
  recent_history : List (Nat × Header)
deriving DecidableEq

/-- `ClientMessage` from `src/node/messages.rs`; scripts are abstract. -/
inductive ClientMessage
  | Shutdown
  | Broadcast (tx : TxBroadcast)
  | AddScripts (scripts : List Nat)
  | Rescan
deriving DecidableEq

/-- `NodeMessage` from `src/node/messages.rs`, variant for variant. -/
inductive NodeMessage
  | Dialog (s : String)
  | Warning (w : Warning)
  | StateChange (s : NodeState)
  | ConnectionsMet
  | Transaction (t : IndexedTransaction)
  | Block (b : IndexedBlock)
  | Synced (update : SyncUpdate)
  | BlocksDisconnected (blocks : List DisconnectedHeader)
  | TxSent (txid : Nat)
  | TxBroadcastFailure (payload : RejectPayload)
deriving DecidableEq

/-- Modelled from the spec: the client error taxonomy of §7 ("Client errors —
`NodeStopping`, `ChannelClosed`, `QueryUnavailable`"); the defining module is
not in the published slice. -/
inductive ClientError
  | NodeStopping
  | ChannelClosed
  | QueryUnavailable
deriving DecidableEq

/-- Modelled from the spec: forks are only tracked when "rooted within the
last REORG_DEPTH (= 10) headers". -/
def REORG_DEPTH : Nat := 10

/-- Modelled from the spec: a `HeaderChain` is "an ordered contiguous sequence
of headers starting at a genesis or checkpoint anchor"; the header at list
index `i` sits at height `anchor.height + 1 + i`. -/
structure HeaderChain where
  anchor : HeaderCheckpoint
  headers : List Header
deriving DecidableEq

/-- Pair each header of a contiguous run with its height, the first at `n`. -/
def withHeightsFrom : Nat → List Header → List (Nat × Header)
  | _, [] => []
  | n, h :: t => (n, h) :: withHeightsFrom (n + 1) t

/-- The chain's headers indexed by their heights, ascending. -/
def HeaderChain.headersWithHeights (c : HeaderChain) : List (Nat × Header) :=
  withHeightsFrom (c.anchor.height + 1) c.headers

/-- Height of the active tip. -/
def HeaderChain.tipHeight (c : HeaderChain) : Nat :=
  c.anchor.height + c.headers.length

/-- Hash of the active tip (the anchor hash for an all-anchor chain). -/
def HeaderChain.tipHash (c : HeaderChain) : Nat :=
  ((c.headers.getLast?).map Header.hash).getD c.anchor.hash

/-- The tip as a checkpoint, as `tip() → (height, hash)` in the spec. -/
def HeaderChain.tip (c : HeaderChain) : HeaderCheckpoint :=
  { height := c.tipHeight, hash := c.tipHash }

/-- Total proof of work of a run of headers. -/
def headersWork (hs : List Header) : Nat :=
  (hs.map Header.work).sum

/-- Cumulative work of the chain's headers above height `r`. -/
def HeaderChain.workAbove (c : HeaderChain) (r : Nat) : Nat :=
  headersWork (c.headers.drop (r - c.anchor.height))

/-- Modelled from the spec: on a reorg "the headers between the common ancestor
and the old tip become DisconnectedHeaders".  The emission order is fixed by
the tests (`stop_reorg_two_resync` in `tests/core.rs` asserts that the LAST
entry of the emitted vector is the old tip at the greatest height), so the
collected list is ascending by height. -/
def HeaderChain.disconnectedAbove (c : HeaderChain) (r : Nat) : List DisconnectedHeader :=
  (withHeightsFrom (r + 1) (c.headers.drop (r - c.anchor.height))).map
    (fun p => { height := p.1, header := p.2 })

/-- Modelled from the spec: when a candidate fork's cumulative work exceeds
the active tip's "the chain atomically switches": the suffix above the common
ancestor at height `r` is disconnected and the fork becomes the active
suffix. -/
def HeaderChain.switchToFork (c : HeaderChain) (r : Nat) (fork : List Header) :
    HeaderChain × List DisconnectedHeader :=
  ({ anchor := c.anchor, headers := c.headers.take (r - c.anchor.height) ++ fork },
   c.disconnectedAbove r)

/-- Height of the chain header carrying hash `prevHash`, if any; the anchor
itself also roots forks. -/
def HeaderChain.findRootHeight (c : HeaderChain) (prevHash : Nat) : Option Nat :=
  if prevHash = c.anchor.hash then some c.anchor.height
  else (c.headersWithHeights.find? (fun p => p.2.hash = prevHash)).map Prod.fst

/-- Modelled from the spec: `ingest(headers[])` of §4.1 and the fork policy.
A batch extending the tip is appended; a batch attaching strictly below the
tip but within `REORG_DEPTH` switches the chain when its work exceeds the old
suffix's, emitting `BlocksDisconnected`, and is otherwise kept as a candidate
(surfaced as the `EvaluatingFork` warning); an unlinkable batch is rejected. -/
def HeaderChain.ingest (c : HeaderChain) (batch : List Header) :
    HeaderChain × List NodeMessage :=
  match batch with
  | [] => (c, [])
  | first :: _ =>
    if first.prev = c.tipHash then
      ({ anchor := c.anchor, headers := c.headers ++ batch }, [])
    else
      match c.findRootHeight first.prev with
      | some r =>
        if c.tipHeight ≤ r + REORG_DEPTH ∧ c.workAbove r < headersWork batch then
          let switched := c.switchToFork r batch
          (switched.1, [NodeMessage.BlocksDisconnected switched.2])
        else
          (c, [NodeMessage.Warning Warning.EvaluatingFork])
      | none => (c, [])

/-- Fold a sequence of offered batches through `ingest`; the empty sequence is
a network that "offered no new headers". -/
def HeaderChain.syncWith (c : HeaderChain) (batches : List (List Header)) : HeaderChain :=
  batches.foldl (fun ch b => (ch.ingest b).1) c

/-- Modelled from the spec: the ten most recent height/header pairs ending at
the tip, the payload of `SyncUpdate.recent_history`. -/
def HeaderChain.recentHistory (c : HeaderChain) : List (Nat × Header) :=
  c.headersWithHeights.drop (c.headers.length - 10)

/-- The `SyncUpdate` carried by a `Synced` event for this chain. -/
def HeaderChain.syncUpdate (c : HeaderChain) : SyncUpdate :=
  { tip := c.tip, recent_history := c.recentHistory }

/-- Modelled from the spec: the header list answering `range(a..b)` — the
chain headers at heights in `[a, b)` strictly below the current height
("exclusive upper bound; returns empty if `a ≥ current_height`"). -/
def HeaderChain.rangeResult (c : HeaderChain) (a b : Nat) : List Header :=
  (c.headersWithHeights.filter
    (fun p => a ≤ p.1 ∧ p.1 < b ∧ p.1 < c.tipHeight)).map Prod.snd

/-- Modelled from the spec: the `GetHeaderRange` query; it answers with a
header list and never fails on an out-of-range start. -/
def HeaderChain.getHeaderRange (c : HeaderChain) (a b : Nat) :
    Except ClientError (List Header) :=
  Except.ok (c.rangeResult a b)

/-- Rows of the persisted header table, `(height → header)`, kept ascending. -/
abbrev Store := List (Nat × Header)

/-- `load_after(height)` of the HeaderStore contract: persisted headers above
`height` in ascending order.  Modelled from the spec. -/
def Store.loadAfter (s : Store) (h : Nat) : List (Nat × Header) :=
  s.filter (fun p => h < p.1)

/-- Modelled from the spec: `commit()` "atomically persists appended headers
and removes disconnected ones from the store": after a commit the rows above
the anchor are exactly the chain's height-indexed headers. -/
def HeaderChain.commit (c : HeaderChain) (s : Store) : Store :=
  (s.filter (fun p => p.1 ≤ c.anchor.height)) ++ c.headersWithHeights

/-- Modelled from the spec: a cold start rebuilds the in-memory chain from the
anchor and `load_after(anchor.height)`. -/
def loadChain (anchor : HeaderCheckpoint) (s : Store) : HeaderChain :=
  { anchor := anchor, headers := (Store.loadAfter s anchor.height).map Prod.snd }

/-- Modelled from the spec: the node-state-machine context a tick operates on —
the owned chain, the global phase and the queue of block heights still to
fetch. -/
structure NodeCtx where
  chain : HeaderChain
  state : NodeState
  blockQueue : List Nat
deriving DecidableEq

/-- Modelled from the spec: the `FiltersSynced` tick of §4.5 — "dispatch
getdata[block] for each height queued ... When the block queue is empty,
transition to TransactionsSynced and emit Synced(SyncUpdate) with the tip and
the last up to 10 headers". -/
def NodeCtx.tickFiltersSynced (n : NodeCtx) : NodeCtx × List NodeMessage :=
  match n.blockQueue with
  | [] =>
    ({ chain := n.chain, state := NodeState.TransactionsSynced, blockQueue := [] },
     [NodeMessage.Synced n.chain.syncUpdate])
  | h :: rest =>
    ({ chain := n.chain, state := n.state, blockQueue := rest },
     [NodeMessage.Block { height := h, block := 0 }])

/-- Modelled from the spec: the observable event trace of a live reorg — the
peer offers a competing batch, the chain reorganizes emitting
`BlocksDisconnected`, and once the (empty, no script matched) block queue
drains the node emits `Synced`. -/
def reorgScenario (c : HeaderChain) (batch : List Header) :
    HeaderChain × List NodeMessage :=
  let step := c.ingest batch
  let tick := NodeCtx.tickFiltersSynced
    { chain := step.1, state := NodeState.FiltersSynced, blockQueue := [] }
  (tick.1.chain, step.2 ++ tick.2)

/-- Modelled from the spec: the caller-side requester handle; after shutdown
the command channel is closed. -/
structure Requester where
  running : Bool
deriving DecidableEq

/-- Modelled from the spec: `shutdown()` closes the command channel and
succeeds; on an already stopped node it changes nothing and still succeeds
("shutdown() is idempotent"). -/
def Requester.shutdown (r : Requester) : Requester × Except ClientError Unit :=
  ({ running := false }, Except.ok ())

/-- Modelled from the spec: a command sent after shutdown "completes with
`NodeStopping`". -/
def Requester.send (r : Requester) (m : ClientMessage) : Except ClientError Unit :=
  if r.running then Except.ok () else Except.error ClientError.NodeStopping

/-- The protocol-violation kinds of §7: "`UnsolicitedMessage`,
`LinkageFailure`, `PoWFailure`". -/
inductive ViolationKind
  | UnsolicitedMessage
  | LinkageFailure
  | PoWFailure
deriving DecidableEq

/-- Per-peer context as far as violations are concerned. -/
structure PeerCtx where
  banned : Bool
deriving DecidableEq

/-- The running node as seen by the violation handler: whether it is still
running and the warnings surfaced so far. -/
structure NodeRun where
  running : Bool
  warnings : List Warning
deriving DecidableEq

/-- The `Warning` (from `src/node/messages.rs`) surfaced for each violation
kind: an unsolicited message has the dedicated `UnsolicitedMessage` variant;
filter-header linkage and proof-of-work failures surface through
`UnexpectedSyncError` with context, the enum having no dedicated variants for
them. -/
def violationWarning : ViolationKind → Warning
  | ViolationKind.UnsolicitedMessage => Warning.UnsolicitedMessage
  | ViolationKind.LinkageFailure =>
      Warning.UnexpectedSyncError "filter header linkage failure"
  | ViolationKind.PoWFailure =>
      Warning.UnexpectedSyncError "header proof of work failure"

/-- Modelled from the spec: §7 protocol violations — "ban peer, surface as
Warning, continue"; the peer-session module is not in the published slice. -/
def handleViolation (n : NodeRun) (p : PeerCtx) (v : ViolationKind) :
    NodeRun × PeerCtx :=
  ({ running := n.running, warnings := n.warnings ++ [violationWarning v] },
   { banned := true })

/-- Whether a disconnected-header list is ordered by descending height. -/
def descendingHeights : List DisconnectedHeader → Bool
  | [] => true
  | [_] => true
  | a :: b :: rest => decide (b.height < a.height) && descendingHeights (b :: rest)

/-- The regtest chain of the integration tests after mining 10 blocks: ten
unit-work headers above a genesis anchor, the header at height `i` carrying
hash `i`. -/
def chain10 : HeaderChain :=
  { anchor := { height := 0, hash := 0 },
    headers := [⟨0, 1, 1⟩, ⟨1, 2, 1⟩, ⟨2, 3, 1⟩, ⟨3, 4, 1⟩, ⟨4, 5, 1⟩,
                ⟨5, 6, 1⟩, ⟨6, 7, 1⟩, ⟨7, 8, 1⟩, ⟨8, 9, 1⟩, ⟨9, 10, 1⟩] }

/-- The competing branch of the `live_reorg` test: invalidate the tip (height
10) and mine 2 blocks, a batch attaching to the header at height 9. -/
def fork2 : List Header := [⟨9, 110, 1⟩, ⟨110, 111, 1⟩]

/-- The competing branch of the `stop_reorg_two_resync` test: invalidate the
tip twice and mine 3 blocks, a batch attaching to the header at height 8. -/
def fork3 : List Header := [⟨8, 109, 1⟩, ⟨109, 110, 1⟩, ⟨110, 111, 1⟩]

theorem withHeightsFrom_map_fst (hs : List Header) :
    ∀ n, (withHeightsFrom n hs).map Prod.fst = List.range' n hs.length := by
  induction hs with
  | nil => intro n; rfl
  | cons h t ih =>
    intro n
    simp only [withHeightsFrom, List.map_cons, List.length_cons, ih (n + 1)]
    rw [List.range'_succ]

theorem withHeightsFrom_map_snd (hs : List Header) :
    ∀ n, (withHeightsFrom n hs).map Prod.snd = hs := by
  induction hs with
  | nil => intro n; rfl
  | cons h t ih =>
    intro n
    simp only [withHeightsFrom, List.map_cons, ih (n + 1)]

theorem withHeightsFrom_length (hs : List Header) :
    ∀ n, (withHeightsFrom n hs).length = hs.length := by
  induction hs with
  | nil => intro n; rfl
  | cons h t ih =>
    intro n
    simp only [withHeightsFrom, List.length_cons, ih (n + 1)]

theorem withHeightsFrom_le_fst (hs : List Header) :
    ∀ n, ∀ p ∈ withHeightsFrom n hs, n ≤ p.1 := by
  induction hs with
  | nil => intro n p hp; simp [withHeightsFrom] at hp
  | cons h t ih =>
    intro n p hp
    simp only [withHeightsFrom, List.mem_cons] at hp
    rcases hp with rfl | hp
    · exact Nat.le_refl n
    · exact Nat.le_of_succ_le (ih (n + 1) p hp)

theorem withHeightsFrom_pairwise (hs : List Header) :
    ∀ n, (withHeightsFrom n hs).Pairwise
      (fun p q : Nat × Header => p.1 < q.1) := by
  induction hs with
  | nil => intro n; exact List.Pairwise.nil
  | cons h t ih =>
    intro n
    refine List.Pairwise.cons ?_ (ih (n + 1))
    intro q hq
    exact Nat.lt_of_lt_of_le (Nat.lt_succ_self n) (withHeightsFrom_le_fst t (n + 1) q hq)

theorem withHeightsFrom_drop :
    ∀ (k : Nat) (hs : List Header) (n : Nat),
      withHeightsFrom (n + k) (hs.drop k) = (withHeightsFrom n hs).drop k := by
  intro k
  induction k with
  | zero => intro hs n; rfl
  | succ k ih =>
    intro hs n
    cases hs with
    | nil => simp [withHeightsFrom]
    | cons h t =>
      show withHeightsFrom (n + (k + 1)) (t.drop k)
          = ((n, h) :: withHeightsFrom (n + 1) t).drop (k + 1)
      rw [List.drop_succ_cons, show n + (k + 1) = (n + 1) + k from by omega,
          ih t (n + 1)]

theorem withHeightsFrom_getLast (hs : List Header) :
    ∀ n, (withHeightsFrom n hs).getLast?
      = hs.getLast?.map (fun h => (n + hs.length - 1, h)) := by
  induction hs with
  | nil => intro n; rfl
  | cons h t ih =>
    intro n
    cases t with
    | nil => rfl
    | cons h2 t2 =>
      show ((n, h) :: (n + 1, h2) :: withHeightsFrom (n + 2) t2).getLast? = _
      rw [List.getLast?_cons_cons,
          show ((n + 1, h2) :: withHeightsFrom (n + 2) t2)
            = withHeightsFrom (n + 1) (h2 :: t2) from rfl,
          ih (n + 1), List.getLast?_cons_cons]
      cases e : (h2 :: t2).getLast? with
      | none => rfl
      | some x =>
        show some ((n + 1) + (h2 :: t2).length - 1, x)
            = some (n + (h :: h2 :: t2).length - 1, x)
        simp only [Option.some.injEq, Prod.mk.injEq, and_true, List.length_cons]
        omega

theorem getLast_drop_of_lt {α : Type} :
    ∀ (l : List α) (n : Nat), n < l.length → (l.drop n).getLast? = l.getLast? := by
  intro l
  induction l with
  | nil => intro n h; simp at h
  | cons a t ih =>
    intro n h
    cases n with
    | zero => rfl
    | succ n =>
      rw [List.drop_succ_cons]
      have ht : n < t.length := by
        simp only [List.length_cons] at h
        omega
      rw [ih n ht]
      cases t with
      | nil => simp at ht
      | cons b t2 => exact (List.getLast?_cons_cons).symm

theorem withHeightsFrom_filter_gt (hs : List Header) :
    ∀ n a, a < n →
      (withHeightsFrom n hs).filter (fun p => a < p.1) = withHeightsFrom n hs := by
  induction hs with
  | nil => intro n a ha; rfl
  | cons h t ih =>
    intro n a ha
    show ((n, h) :: withHeightsFrom (n + 1) t).filter (fun p => a < p.1)
        = (n, h) :: withHeightsFrom (n + 1) t
    rw [List.filter_cons]
    have hd : (decide (a < (n, h).1)) = true := decide_eq_true ha
    rw [if_pos hd, ih (n + 1) a (Nat.lt_succ_of_lt ha)]

theorem filter_le_then_gt (s : Store) (a : Nat) :
    ((s.filter (fun p => p.1 ≤ a)).filter (fun p => a < p.1)) = [] := by
  rw [List.filter_eq_nil_iff]
  intro p hp
  have h1 := (List.mem_filter.mp hp).2
  simp only [decide_eq_true_eq] at h1 ⊢
  omega

theorem recentHistory_length_le (c : HeaderChain) : c.recentHistory.length ≤ 10 := by
  have hl : c.headersWithHeights.length = c.headers.length :=
    withHeightsFrom_length c.headers (c.anchor.height + 1)
  simp only [HeaderChain.recentHistory, List.length_drop, hl]
  omega

theorem recentHistory_pairwise (c : HeaderChain) :
    c.recentHistory.Pairwise (fun p q : Nat × Header => p.1 < q.1) :=
  (withHeightsFrom_pairwise c.headers (c.anchor.height + 1)).sublist
    (List.drop_sublist _ _)

theorem recentHistory_getLast (c : HeaderChain) (h : c.headers ≠ []) :
    c.recentHistory.getLast?
      = c.headers.getLast?.map (fun hd => (c.tipHeight, hd)) := by
  have hlen : 0 < c.headers.length := List.length_pos.mpr h
  have hwl : c.headersWithHeights.length = c.headers.length :=
    withHeightsFrom_length c.headers (c.anchor.height + 1)
  have hdrop : c.headers.length - 10 < c.headersWithHeights.length := by omega
  unfold HeaderChain.recentHistory
  rw [getLast_drop_of_lt _ _ hdrop]
  unfold HeaderChain.headersWithHeights
  rw [withHeightsFrom_getLast]
  have harith : c.anchor.height + 1 + c.headers.length - 1 = c.tipHeight := by
    unfold HeaderChain.tipHeight
    omega
  simp only [harith]

/-- C1 (amended): for every reorganization in which a candidate fork rooted at
the common ancestor height `r` replaces the active suffix, the removed headers
are emitted in a single `BlocksDisconnected` list ordered by ASCENDING height:
the heights are exactly `r+1, ..., tipHeight`, so the header closest to the
common ancestor comes first and the old tip (highest height) comes last, each
entry being the chain header that stood at its height. -/
theorem reorg_disconnected_ascending (c : HeaderChain) (r : Nat) (fork : List Header)
    (h1 : c.anchor.height ≤ r) (h2 : r ≤ c.tipHeight) :
    ((c.switchToFork r fork).2).map DisconnectedHeader.height
        = List.range' (r + 1) (c.tipHeight - r)
    ∧ List.Pairwise (fun a b : DisconnectedHeader => a.height < b.height)
        (c.switchToFork r fork).2
    ∧ ∀ d ∈ (c.switchToFork r fork).2,
        (d.height, d.header) ∈ c.headersWithHeights := by
  have hlen : (c.headers.drop (r - c.anchor.height)).length = c.tipHeight - r := by
    rw [List.length_drop]
    unfold HeaderChain.tipHeight at h2 ⊢
    omega
  refine ⟨?_, ?_, ?_⟩
  · show ((withHeightsFrom (r + 1) (c.headers.drop (r - c.anchor.height))).map
        (fun p => ({ height := p.1, header := p.2 } : DisconnectedHeader))).map
        DisconnectedHeader.height = _
    rw [List.map_map,
        show (DisconnectedHeader.height ∘ fun p : Nat × Header =>
          ({ height := p.1, header := p.2 } : DisconnectedHeader)) = Prod.fst from rfl,
        withHeightsFrom_map_fst, hlen]
  · exact (withHeightsFrom_pairwise _ _).map _ (fun a b hab => hab)
  · intro d hd
    rcases List.mem_map.mp hd with ⟨p, hp, rfl⟩
    have hsub : withHeightsFrom (r + 1) (c.headers.drop (r - c.anchor.height))
        = c.headersWithHeights.drop (r - c.anchor.height) := by
      have hw := withHeightsFrom_drop (r - c.anchor.height) c.headers
        (c.anchor.height + 1)
      rw [show c.anchor.height + 1 + (r - c.anchor.height) = r + 1 from by omega] at hw
      exact hw
    rw [hsub] at hp
    exact List.mem_of_mem_drop hp

/-- Witness for `reorg_disconnected_ascending` at the two-block reorg of the
test suite: the fork of `fork3` roots at height 8 of `chain10`, and the
disconnected heights come out as `[9, 10]`. -/
theorem reorg_disconnected_ascending_witness :
    chain10.anchor.height ≤ 8 ∧ 8 ≤ chain10.tipHeight ∧
      (chain10.switchToFork 8 fork3).2.map DisconnectedHeader.height
        = List.range' (8 + 1) (chain10.tipHeight - 8) :=
  ⟨by decide, by decide,
   (reorg_disconnected_ascending chain10 8 fork3 (by decide) (by decide)).1⟩

/-- C1 counterexample: the two-block reorg of the `stop_reorg_two_resync` test
is a legitimate switch (fork rooted within `REORG_DEPTH` of the tip, strictly
more cumulative work), yet the emitted `BlocksDisconnected` list is NOT in
descending-height order: the header closest to the common ancestor (height 9)
comes first and the old tip (height 10) comes last. -/
theorem reorg_disconnected_not_descending :
    chain10.workAbove 8 < headersWork fork3
    ∧ chain10.tipHeight ≤ 8 + REORG_DEPTH
    ∧ (chain10.switchToFork 8 fork3).2
        = [⟨9, ⟨8, 9, 1⟩⟩, ⟨10, ⟨9, 10, 1⟩⟩]
    ∧ descendingHeights (chain10.switchToFork 8 fork3).2 = false := by
  decide

/-- C2: after syncing to the regtest tip at height 10, invalidating the tip
twice and mining 3 blocks on the competing branch, the node emits a
`BlocksDisconnected` event containing exactly 2 `DisconnectedHeader`s whose
last element has height 10 and header hash equal to the original tip's hash,
followed by a `Synced` event whose tip height is 11. -/
theorem stop_reorg_two_resync_model :
    chain10.tipHeight = 10
    ∧ ∃ ds u,
        (reorgScenario chain10 fork3).2
          = [NodeMessage.BlocksDisconnected ds, NodeMessage.Synced u]
        ∧ ds.length = 2
        ∧ ds.getLast? = some ⟨10, ⟨9, 10, 1⟩⟩
        ∧ chain10.headers.getLast? = some ⟨9, 10, 1⟩
        ∧ (⟨9, 10, 1⟩ : Header).hash = chain10.tipHash
        ∧ u.tip.height = 11 := by
  refine ⟨by decide,
    [⟨9, ⟨8, 9, 1⟩⟩, ⟨10, ⟨9, 10, 1⟩⟩],
    (reorgScenario chain10 fork3).1.syncUpdate,
    by decide, by decide, by decide, by decide, by decide, by decide⟩

/-- C3: after syncing to the regtest tip at height 10, invalidating that tip
and mining 2 replacement blocks, the node emits a `BlocksDisconnected` event
containing exactly one `DisconnectedHeader` — height 10 with the old tip's
header — followed by a `Synced` event whose tip height is 11. -/
theorem live_reorg_model :
    chain10.tipHeight = 10
    ∧ ∃ ds u,
        (reorgScenario chain10 fork2).2
          = [NodeMessage.BlocksDisconnected ds, NodeMessage.Synced u]
        ∧ ds = [⟨10, ⟨9, 10, 1⟩⟩]
        ∧ chain10.headers.getLast? = some ⟨9, 10, 1⟩
        ∧ (⟨9, 10, 1⟩ : Header).hash = chain10.tipHash
        ∧ u.tip.height = 11 := by
  refine ⟨by decide,
    [⟨10, ⟨9, 10, 1⟩⟩],
    (reorgScenario chain10 fork2).1.syncUpdate,
    by decide, by decide, by decide, by decide, by decide⟩

/-- C4: a header-range query whose start bound is at or above the current
chain height returns an empty list and no error; in particular after syncing
to tip height 10 the query `get_header_range(10_000..10_002)` succeeds with an
empty result; and the upper bound of the range is exclusive (every returned
header sits at a height strictly below `b`). -/
theorem get_header_range_spec :
    (∀ (c : HeaderChain) (a b : Nat), c.tipHeight ≤ a →
        c.getHeaderRange a b = Except.ok [])
    ∧ chain10.getHeaderRange 10000 10002 = Except.ok []
    ∧ ∀ (c : HeaderChain) (a b : Nat), ∀ hd ∈ c.rangeResult a b,
        ∃ p ∈ c.headersWithHeights, p.2 = hd ∧ a ≤ p.1 ∧ p.1 < b := by
  refine ⟨?_, ?_, ?_⟩
  · intro c a b hab
    unfold HeaderChain.getHeaderRange HeaderChain.rangeResult
    have hnil : (c.headersWithHeights.filter
        (fun p => a ≤ p.1 ∧ p.1 < b ∧ p.1 < c.tipHeight)) = [] := by
      rw [List.filter_eq_nil_iff]
      intro p hp
      simp only [decide_eq_true_eq]
      omega
    rw [hnil]
    rfl
  · rfl
  · intro c a b hd hmem
    unfold HeaderChain.rangeResult at hmem
    rcases List.mem_map.mp hmem with ⟨p, hp, rfl⟩
    have h2 := List.mem_filter.mp hp
    have h3 := h2.2
    simp only [decide_eq_true_eq] at h3
    exact ⟨p, h2.1, rfl, h3.1, h3.2.1⟩

/-- Witness for `get_header_range_spec`: the start bound 10000 is above
`chain10`'s height, and the query answers with the empty list. -/
theorem get_header_range_spec_witness :
    chain10.tipHeight ≤ 10000 ∧ chain10.getHeaderRange 10000 10002 = Except.ok [] :=
  ⟨by decide, get_header_range_spec.1 chain10 10000 10002 (by decide)⟩

/-- C5: on every protocol violation of kind `UnsolicitedMessage`,
`LinkageFailure` or `PoWFailure` the node bans the offending peer, surfaces a
`Warning` to the caller (a distinct one per violation kind, the dedicated
`Warning.UnsolicitedMessage` variant for unsolicited messages) and keeps
running instead of failing. -/
theorem protocol_violation_bans_warns_continues :
    (∀ (n : NodeRun) (p : PeerCtx) (v : ViolationKind),
        (handleViolation n p v).2.banned = true
        ∧ (handleViolation n p v).1.running = n.running
        ∧ (handleViolation n p v).1.warnings = n.warnings ++ [violationWarning v])
    ∧ (∀ v w : ViolationKind, violationWarning v = violationWarning w → v = w)
    ∧ violationWarning ViolationKind.UnsolicitedMessage = Warning.UnsolicitedMessage := by
  refine ⟨fun n p v => ⟨rfl, rfl, rfl⟩, ?_, rfl⟩
  intro v w hvw
  cases v <;> cases w <;> first | rfl | exact absurd hvw (by decide)

/-- Witness for `protocol_violation_bans_warns_continues` at a concrete
violation. -/
theorem protocol_violation_witness :
    (handleViolation ⟨true, []⟩ ⟨false⟩ ViolationKind.PoWFailure).2.banned = true
    ∧ ViolationKind.UnsolicitedMessage = ViolationKind.UnsolicitedMessage :=
  ⟨(protocol_violation_bans_warns_continues.1 ⟨true, []⟩ ⟨false⟩
      ViolationKind.PoWFailure).1,
   protocol_violation_bans_warns_continues.2.1 ViolationKind.UnsolicitedMessage
      ViolationKind.UnsolicitedMessage rfl⟩

/-- C6: whenever the block-fetch queue is empty, the `FiltersSynced` tick
transitions the node to `TransactionsSynced` and emits a single
`Synced(SyncUpdate)` event carrying the current tip (height and hash) and the
most recent headers — at most 10 of them, ending at the tip. -/
theorem filters_synced_tick (n : NodeCtx) (h : n.blockQueue = []) :
    (n.tickFiltersSynced).1.state = NodeState.TransactionsSynced
    ∧ (n.tickFiltersSynced).2
        = [NodeMessage.Synced
            { tip := n.chain.tip, recent_history := n.chain.recentHistory }]
    ∧ n.chain.recentHistory.length ≤ 10
    ∧ (n.chain.headers ≠ [] →
        n.chain.recentHistory.getLast?.map Prod.fst = some n.chain.tip.height) := by
  obtain ⟨c, s, q⟩ := n
  change q = [] at h
  subst h
  refine ⟨rfl, rfl, recentHistory_length_le c, ?_⟩
  intro hne
  rw [recentHistory_getLast c hne]
  cases e : c.headers.getLast? with
  | none => exact absurd (List.getLast?_eq_none_iff.mp e) hne
  | some x => rfl

/-- Witness for `filters_synced_tick` with `chain10` and an empty queue. -/
theorem filters_synced_tick_witness :
    (NodeCtx.tickFiltersSynced
        { chain := chain10, state := NodeState.FiltersSynced, blockQueue := [] }).1.state
      = NodeState.TransactionsSynced
    ∧ (NodeCtx.tickFiltersSynced
        { chain := chain10, state := NodeState.FiltersSynced, blockQueue := [] }).2
      = [NodeMessage.Synced
          { tip := chain10.tip, recent_history := chain10.recentHistory }] :=
  ⟨(filters_synced_tick
      { chain := chain10, state := NodeState.FiltersSynced, blockQueue := [] } rfl).1,
   (filters_synced_tick
      { chain := chain10, state := NodeState.FiltersSynced, blockQueue := [] } rfl).2.1⟩

/-- C7: `shutdown()` is idempotent — a second call on an already shut down
requester succeeds and changes nothing — and every command issued after a
shutdown completes with the `NodeStopping` error. -/
theorem shutdown_idempotent_commands_stop :
    ∀ r : Requester,
      ((r.shutdown).1).shutdown = ((r.shutdown).1, Except.ok ())
      ∧ (r.shutdown).2 = Except.ok ()
      ∧ ∀ m : ClientMessage,
          ((r.shutdown).1).send m = Except.error ClientError.NodeStopping := by
  intro r
  exact ⟨rfl, rfl, fun m => rfl⟩

/-- C8: a cold restart from the persisted store rebuilds exactly the
pre-shutdown chain, and a replay in which the network offers no new headers
leaves it unchanged, so the restarted node reaches the same tip (height and
hash) as the pre-shutdown run. -/
theorem cold_restart_preserves_tip :
    ∀ (c : HeaderChain) (s : Store),
      loadChain c.anchor (c.commit s) = c
      ∧ (loadChain c.anchor (c.commit s)).syncWith [] = c
      ∧ ((loadChain c.anchor (c.commit s)).syncWith []).tip = c.tip := by
  intro c s
  have key : loadChain c.anchor (c.commit s) = c := by
    show ({ anchor := c.anchor,
            headers := (Store.loadAfter (c.commit s) c.anchor.height).map Prod.snd }
          : HeaderChain) = c
    unfold Store.loadAfter HeaderChain.commit
    rw [List.filter_append, filter_le_then_gt, List.nil_append]
    unfold HeaderChain.headersWithHeights
    rw [withHeightsFrom_filter_gt c.headers (c.anchor.height + 1) c.anchor.height
          (Nat.lt_succ_self _),
        withHeightsFrom_map_snd]
  refine ⟨key, ?_, ?_⟩
  · rw [key]
    rfl
  · rw [key]
    rfl

/-- C9: a `TxBroadcast` constructed without an explicit policy carries the
default `TxBroadcastPolicy`, which is `RandomPeer` and not `AllPeers`. -/
theorem default_broadcast_policy_random :
    TxBroadcastPolicy.default = TxBroadcastPolicy.RandomPeer
    ∧ TxBroadcastPolicy.default ≠ TxBroadcastPolicy.AllPeers
    ∧ ∀ tx : Nat, (TxBroadcast.withDefaultPolicy tx).broadcast_policy
        = TxBroadcastPolicy.RandomPeer :=
  ⟨rfl, by decide, fun tx => rfl⟩

/-- C10: in every `SyncUpdate` produced by the chain, `recent_history` maps
each height to at most one header (its keys are pairwise distinct), iterating
it yields the entries in strictly ascending height order, and it ends with the
tip: the last entry sits at the tip height and its header carries the tip
hash. -/
theorem recent_history_keys (c : HeaderChain) (h : c.headers ≠ []) :
    (c.syncUpdate.recent_history.map Prod.fst).Nodup
    ∧ c.syncUpdate.recent_history.Pairwise (fun p q : Nat × Header => p.1 < q.1)
    ∧ c.syncUpdate.recent_history.getLast?
        = c.headers.getLast?.map (fun hd => (c.tipHeight, hd))
    ∧ c.syncUpdate.recent_history.getLast?.map (fun p => p.2.hash)
        = some c.syncUpdate.tip.hash := by
  have hpw : c.recentHistory.Pairwise (fun p q : Nat × Header => p.1 < q.1) :=
    recentHistory_pairwise c
  have hlast := recentHistory_getLast c h
  refine ⟨?_, hpw, hlast, ?_⟩
  · exact List.pairwise_map.mpr (hpw.imp (fun hlt => Nat.ne_of_lt hlt))
  · show (c.recentHistory.getLast?.map (fun p => p.2.hash)) = some c.tipHash
    rw [hlast]
    cases e : c.headers.getLast? with
    | none => exact absurd (List.getLast?_eq_none_iff.mp e) h
    | some x =>
      show some x.hash = some c.tipHash
      unfold HeaderChain.tipHash
      rw [e]
      rfl

/-- Witness for `recent_history_keys` at `chain10`. -/
theorem recent_history_keys_witness :
    chain10.headers ≠ []
    ∧ (chain10.syncUpdate.recent_history.map Prod.fst).Nodup :=
  ⟨by decide, (recent_history_keys chain10 (by decide)).1⟩

end Kyoto
